import Mathlib

/-!
Verification of the sandbox lifecycle registry and the configuration
catalog of the dagent repository.

The Python code in `src/agent/daytona_agent.py` keeps the registry as an
insertion-ordered mapping from sandbox id to a sandbox record (itself an
insertion-ordered mapping from field name to value).  We embed Python
dicts as association lists in insertion order, with the exact update
semantics of CPython dicts: assignment to an existing key replaces the
value in place (keeping the position), assignment to a fresh key appends
at the end, and deletion removes the entry.
-/

namespace DAgent

/-- Embedding of Python values (`Any`) as far as the registry and catalog
use them: strings, integers, lists and string-keyed dicts. -/
inductive PyVal where
  | vStr : String → PyVal
  | vInt : Int → PyVal
  | vList : List PyVal → PyVal
  | vDict : List (String × PyVal) → PyVal

/-- A Python `dict` with string keys, as an insertion-ordered association
list.  Reachable dicts of the program have pairwise distinct keys. -/
abbrev Dict (α : Type) := List (String × α)

/-- Python `k in d`. -/
def dcontains (d : Dict α) (k : String) : Bool :=
  d.any (fun p => p.1 == k)

/-- Python `d[k]` / `d.get(k)`: value at the first occurrence of `k`. -/
def dget? : Dict α → String → Option α
  | [], _ => none
  | (k', v) :: rest, k => if k' == k then some v else dget? rest k

/-- Python `d[k] = v`: replace the value at `k` in place when `k` is
present, append `(k, v)` at the end otherwise. -/
def dset : Dict α → String → α → Dict α
  | [], k, v => [(k, v)]
  | (k', v') :: rest, k, v =>
    if k' == k then (k', v) :: rest else (k', v') :: dset rest k v

/-- Python `del d[k]`: drop the entry at `k`. -/
def ddel : Dict α → String → Dict α
  | [], _ => []
  | (k', v') :: rest, k => if k' == k then rest else (k', v') :: ddel rest k

/-- Python `list(d.keys())`. -/
def dkeys (d : Dict α) : List String := d.map (fun p => p.1)

/-- Python `list(d.values())`. -/
def dvalues (d : Dict α) : List α := d.map (fun p => p.2)

/-- A sandbox record (`Dict[str, Any]` in the source). -/
abbrev Record := Dict PyVal

/-- The registry `_sandbox_state : Dict[str, Dict[str, Any]]`. -/
abbrev RegState := Dict Record

/-- The id string `f"sandbox-{n}"` built by `create_sandbox`; `Nat.repr`
is Lean's decimal rendering, matching Python's decimal `str(int)`. -/
def mkSandboxId (n : Nat) : String := "sandbox-" ++ Nat.repr n

/-- `DaytonaSandboxAgent.create_sandbox` (src/agent/daytona_agent.py,
lines 37-64): allocates `sandbox_id` from the current registry size,
builds the record literal in source order, stores it and returns it.
`resources or {}` is `Option.getD` here: Python `x or {}` yields `{}`
both for `None` and for an empty dict, and an empty dict for an empty
dict, so the two agree. -/
def create_sandbox (s : RegState) (name template : String)
    (resources : Option (Dict PyVal)) : Record × RegState :=
  let sandbox_id := mkSandboxId (s.length + 1)
  let sandbox_details : Record :=
    [("id", PyVal.vStr sandbox_id),
     ("name", PyVal.vStr name),
     ("template", PyVal.vStr template),
     ("resources", PyVal.vDict (resources.getD [])),
     ("status", PyVal.vStr "creating"),
     ("url", PyVal.vStr ("https://" ++ sandbox_id ++ ".example.com"))]
  (sandbox_details, dset s sandbox_id sandbox_details)

/-- The configuration loop of `configure_sandbox`: for each key/value
pair, in iteration order, overwrite the field when the key is already a
field name of the record, ignore the pair otherwise.  The Python loop
mutates the stored record in place; threading the record through a fold
is the same visible behaviour. -/
def applyConfiguration (r : Record) (configuration : Dict PyVal) : Record :=
  configuration.foldl
    (fun acc kv => if dcontains acc kv.1 then dset acc kv.1 kv.2 else acc) r

/-- `DaytonaSandboxAgent.configure_sandbox` (lines 66-87): raises
`ValueError` when the id is absent (before any mutation); otherwise
applies the configuration loop, then sets `status` to `"configured"`,
stores the updated record back and returns it. -/
def configure_sandbox (s : RegState) (sandbox_id : String)
    (configuration : Dict PyVal) : Except String (Record × RegState) :=
  match dget? s sandbox_id with
  | none => Except.error ("Sandbox " ++ sandbox_id ++ " not found")
  | some r0 =>
    let r1 := applyConfiguration r0 configuration
    let r2 := dset r1 "status" (PyVal.vStr "configured")
    Except.ok (r2, dset s sandbox_id r2)

/-- `DaytonaSandboxAgent.delete_sandbox` (lines 89-104): raises
`ValueError` when the id is absent (before any mutation); otherwise
removes the record and returns the acknowledgement dict literal. -/
def delete_sandbox (s : RegState) (sandbox_id : String) :
    Except String (Dict String × RegState) :=
  if dcontains s sandbox_id then
    Except.ok
      ([("status", "success"),
        ("message", "Sandbox " ++ sandbox_id ++ " deleted")],
       ddel s sandbox_id)
  else Except.error ("Sandbox " ++ sandbox_id ++ " not found")

/-- `DaytonaSandboxAgent.list_sandboxes` (lines 106-112):
`list(self._sandbox_state.values())`. -/
def list_sandboxes (s : RegState) : List Record := dvalues s

/-- One invocation of a registry tool call, for reasoning about call
sequences. -/
inductive AgentOp where
  | createOp (name template : String) (resources : Option (Dict PyVal))
  | configureOp (sandbox_id : String) (configuration : Dict PyVal)
  | deleteOp (sandbox_id : String)

/-- State after one tool call.  A raised `ValueError` leaves the Python
dict untouched, because both raises happen before any mutation. -/
def applyOp (s : RegState) : AgentOp → RegState
  | AgentOp.createOp n t r => (create_sandbox s n t r).2
  | AgentOp.configureOp sid cfg =>
    match configure_sandbox s sid cfg with
    | Except.ok p => p.2
    | Except.error _ => s
  | AgentOp.deleteOp sid =>
    match delete_sandbox s sid with
    | Except.ok p => p.2
    | Except.error _ => s

/-- State after a sequence of tool calls. -/
def runOps (s : RegState) (ops : List AgentOp) : RegState := ops.foldl applyOp s

/-- The numeric suffixes of the ids issued by the create calls of a call
sequence, in call order (`len(self._sandbox_state) + 1` at each create). -/
def issuedSuffixes (s : RegState) : List AgentOp → List Nat
  | [] => []
  | op :: rest =>
    match op with
    | AgentOp.createOp _ _ _ => (s.length + 1) :: issuedSuffixes (applyOp s op) rest
    | _ => issuedSuffixes (applyOp s op) rest

/-- Whether a tool call is a delete. -/
def isDeleteOp : AgentOp → Bool
  | AgentOp.deleteOp _ => true
  | _ => false

/-- Whether a call sequence contains no delete. -/
def noDeletes (ops : List AgentOp) : Bool :=
  ops.all (fun op => !isDeleteOp op)

/-- The number of create calls in a call sequence. -/
def countCreates : List AgentOp → Nat
  | [] => 0
  | AgentOp.createOp _ _ _ :: rest => countCreates rest + 1
  | _ :: rest => countCreates rest

/-- Modelled from the spec: the registry instance is "empty at
construction" and "owned, per-instance state" (spec sections 4.2 and 9).
The per-instance instantiation itself happens in the external
`google.adk` / pydantic base class, which deep-copies the declared
default `{}` of the underscore-private attribute `_sandbox_state` into
every new model instance; that framework code is not part of this
repository, so construction is modelled from the spec's words.  A
process holds the states of all agent instances, indexed by instance. -/
def AgentProcess := Nat → RegState

/-- Modelled from the spec: constructing agent instance `i` initialises
that instance's own `_sandbox_state` to the empty mapping and touches no
other instance. -/
def constructAgent (p : AgentProcess) (i : Nat) : AgentProcess :=
  fun j => if j = i then [] else p j

/-- Running a sequence of tool calls on agent instance `i`: every
registry operation of the source reads and writes
`self._sandbox_state`, the state of the instance it is invoked on. -/
def runOpsOn (p : AgentProcess) (i : Nat) (ops : List AgentOp) : AgentProcess :=
  fun j => if j = i then runOps (p i) ops else p j

/-- `DEFAULT_TEMPLATES` (src/config.py, lines 5-36), in declaration
order, each dict literal in source key order. -/
def DEFAULT_TEMPLATES : List Record :=
  [[("id", PyVal.vStr "python-dev"),
    ("name", PyVal.vStr "Python Development Environment"),
    ("description", PyVal.vStr
      "Environment for Python development with common tools and libraries"),
    ("base_image", PyVal.vStr "python:3.9"),
    ("installed_packages", PyVal.vList
      [PyVal.vStr "pytest", PyVal.vStr "black", PyVal.vStr "isort",
       PyVal.vStr "mypy", PyVal.vStr "flake8"]),
    ("setup_commands", PyVal.vList
      [PyVal.vStr "pip install -r requirements.txt"])],
   [("id", PyVal.vStr "node-dev"),
    ("name", PyVal.vStr "Node.js Development Environment"),
    ("description", PyVal.vStr
      "Environment for Node.js development with common tools and libraries"),
    ("base_image", PyVal.vStr "node:16"),
    ("installed_packages", PyVal.vList
      [PyVal.vStr "typescript", PyVal.vStr "eslint", PyVal.vStr "prettier",
       PyVal.vStr "jest"]),
    ("setup_commands", PyVal.vList [PyVal.vStr "npm install"])],
   [("id", PyVal.vStr "go-dev"),
    ("name", PyVal.vStr "Go Development Environment"),
    ("description", PyVal.vStr
      "Environment for Go development with common tools and libraries"),
    ("base_image", PyVal.vStr "golang:1.18"),
    ("installed_packages", PyVal.vList []),
    ("setup_commands", PyVal.vList [PyVal.vStr "go mod download"])]]

/-- `DEFAULT_RESOURCE_CONFIGS` (src/config.py, lines 39-55). -/
def DEFAULT_RESOURCE_CONFIGS : Dict (Dict String) :=
  [("small", [("cpu", "1"), ("memory", "2Gi"), ("disk", "10Gi")]),
   ("medium", [("cpu", "2"), ("memory", "4Gi"), ("disk", "20Gi")]),
   ("large", [("cpu", "4"), ("memory", "8Gi"), ("disk", "40Gi")])]

/-- The loop condition `template["id"] == template_id` of
`get_template_by_id`.  Every catalog entry has a string `"id"` field, so
the `KeyError` path is unreachable; a non-string value would compare
unequal to a string in Python, hence the catch-all `false`. -/
def templateIdMatches (t : Record) (template_id : String) : Bool :=
  match dget? t "id" with
  | some (PyVal.vStr s) => s == template_id
  | _ => false

/-- `get_template_by_id` (src/config.py, lines 81-96): first catalog
entry whose `"id"` equals the query, else `ValueError`. -/
def get_template_by_id (template_id : String) : Except String Record :=
  match DEFAULT_TEMPLATES.find? (fun t => templateIdMatches t template_id) with
  | some t => Except.ok t
  | none =>
    Except.error ("Template with ID \x27" ++ template_id ++ "\x27 not found")

/-- `get_resource_config` (src/config.py, lines 98-112): membership test
then lookup, else `ValueError`. -/
def get_resource_config (size : String) : Except String (Dict String) :=
  match dget? DEFAULT_RESOURCE_CONFIGS size with
  | some c => Except.ok c
  | none =>
    Except.error ("Resource configuration \x27" ++ size ++ "\x27 not found")

/-- The last value a configuration dict associates to a key, if any
(Python dict keys are unique, so this is plainly the value at the key;
on the association-list model it is the last binding). -/
def lastVal? : Dict PyVal → String → Option PyVal
  | [], _ => none
  | kv :: rest, k =>
    match lastVal? rest k with
    | some v => some v
    | none => if kv.1 == k then some kv.2 else none

/-- The value a field named `k` holds after the configuration loop,
starting from value `v`. -/
def configValue (cfg : Dict PyVal) (k : String) (v : PyVal) : PyVal :=
  cfg.foldl (fun acc kv => if kv.1 == k then kv.2 else acc) v

theorem dkeys_nil : dkeys ([] : Dict α) = [] := rfl

theorem dkeys_cons (p : String × α) (d : Dict α) :
    dkeys (p :: d) = p.1 :: dkeys d := rfl

theorem dvalues_nil : dvalues ([] : Dict α) = [] := rfl

theorem dvalues_cons (p : String × α) (d : Dict α) :
    dvalues (p :: d) = p.2 :: dvalues d := rfl

theorem dcontains_nil (k : String) : dcontains ([] : Dict α) k = false := rfl

theorem dcontains_cons (p : String × α) (d : Dict α) (k : String) :
    dcontains (p :: d) k = ((p.1 == k) || dcontains d k) := rfl

theorem dget?_nil (k : String) : dget? ([] : Dict α) k = none := rfl

theorem dget?_cons (k' : String) (v' : α) (d : Dict α) (k : String) :
    dget? ((k', v') :: d) k = if k' == k then some v' else dget? d k := rfl

theorem dset_nil (k : String) (v : α) : dset ([] : Dict α) k v = [(k, v)] := rfl

theorem dset_cons (k' : String) (v' : α) (d : Dict α) (k : String) (v : α) :
    dset ((k', v') :: d) k v =
      if k' == k then (k', v) :: d else (k', v') :: dset d k v := rfl

theorem ddel_nil (k : String) : ddel ([] : Dict α) k = [] := rfl

theorem ddel_cons (k' : String) (v' : α) (d : Dict α) (k : String) :
    ddel ((k', v') :: d) k =
      if k' == k then d else (k', v') :: ddel d k := rfl

theorem dget?_eq_none_iff (d : Dict α) (k : String) :
    dget? d k = none ↔ k ∉ dkeys d := by
  induction d with
  | nil => simp [dget?_nil, dkeys_nil]
  | cons p rest ih =>
    obtain ⟨k', v'⟩ := p
    by_cases h : k' = k
    · subst h
      simp [dget?_cons, dkeys_cons]
    · simp [dget?_cons, dkeys_cons, h, Ne.symm h, ih]

theorem dcontains_iff (d : Dict α) (k : String) :
    dcontains d k = true ↔ k ∈ dkeys d := by
  induction d with
  | nil => simp [dcontains_nil, dkeys_nil]
  | cons p rest ih =>
    obtain ⟨k', v'⟩ := p
    by_cases h : k' = k
    · subst h
      simp [dcontains_cons, dkeys_cons]
    · simp [dcontains_cons, dkeys_cons, h, Ne.symm h, ih]

theorem dcontains_eq_isSome (d : Dict α) (k : String) :
    dcontains d k = (dget? d k).isSome := by
  cases hc : dcontains d k
  · have hmem : k ∉ dkeys d := by
      intro hmem
      rw [← dcontains_iff] at hmem
      rw [hc] at hmem
      exact Bool.false_ne_true hmem
    rw [(dget?_eq_none_iff d k).2 hmem]
    rfl
  · have hmem : k ∈ dkeys d := (dcontains_iff d k).1 hc
    cases hg : dget? d k
    · exact absurd ((dget?_eq_none_iff d k).1 hg) (fun h => h hmem)
    · rfl

theorem dget?_dset_self (d : Dict α) (k : String) (v : α) :
    dget? (dset d k v) k = some v := by
  induction d with
  | nil => simp [dset_nil, dget?_cons]
  | cons p rest ih =>
    obtain ⟨k', v'⟩ := p
    by_cases h : k' = k
    · subst h
      simp [dset_cons, dget?_cons]
    · simp [dset_cons, dget?_cons, h, ih]

theorem dget?_dset_ne (d : Dict α) (k k' : String) (v : α) (h : k' ≠ k) :
    dget? (dset d k v) k' = dget? d k' := by
  induction d with
  | nil => simp [dset_nil, dget?_cons, dget?_nil, Ne.symm h]
  | cons p rest ih =>
    obtain ⟨k0, v0⟩ := p
    by_cases h0 : k0 = k
    · subst h0
      simp [dset_cons, dget?_cons, Ne.symm h]
    · simp [dset_cons, dget?_cons, h0, ih]

theorem dkeys_dset_of_contains (d : Dict α) (k : String) (v : α)
    (h : dcontains d k = true) : dkeys (dset d k v) = dkeys d := by
  induction d with
  | nil => simp [dcontains_nil] at h
  | cons p rest ih =>
    obtain ⟨k', v'⟩ := p
    by_cases h0 : k' = k
    · subst h0
      simp [dset_cons, dkeys_cons]
    · simp only [dcontains_cons, Bool.or_eq_true, beq_iff_eq] at h
      rcases h with h | h
      · exact absurd h h0
      · simp [dset_cons, dkeys_cons, h0, ih h]

theorem dset_eq_append_of_not_contains (d : Dict α) (k : String) (v : α)
    (h : dcontains d k = false) : dset d k v = d ++ [(k, v)] := by
  induction d with
  | nil => simp [dset_nil]
  | cons p rest ih =>
    obtain ⟨k', v'⟩ := p
    simp only [dcontains_cons, Bool.or_eq_false_iff] at h
    have h1 : k' ≠ k := by simpa using h.1
    simp [dset_cons, h1, ih h.2]

theorem dset_dset_self (d : Dict α) (k : String) (v w : α) :
    dset (dset d k v) k w = dset d k w := by
  induction d with
  | nil => simp [dset_nil, dset_cons]
  | cons p rest ih =>
    obtain ⟨k', v'⟩ := p
    by_cases h : k' = k
    · subst h
      simp [dset_cons]
    · simp [dset_cons, h, ih]

theorem dcontains_ddel_self (d : Dict α) (k : String)
    (h : (dkeys d).Nodup) : dcontains (ddel d k) k = false := by
  induction d with
  | nil => rfl
  | cons p rest ih =>
    obtain ⟨k', v'⟩ := p
    simp only [dkeys_cons, List.nodup_cons] at h
    by_cases h0 : k' = k
    · subst h0
      have hd : ddel ((k', v') :: rest) k' = rest := by simp [ddel_cons]
      rw [hd]
      cases hc : dcontains rest k'
      · rfl
      · exact absurd ((dcontains_iff rest k').1 hc) h.1
    · simp [ddel_cons, dcontains_cons, h0, ih h.2]

theorem dkeys_length (d : Dict α) : (dkeys d).length = d.length := by
  simp [dkeys]

theorem dcontains_of_dget? (d : Dict α) (k : String) (v : α)
    (h : dget? d k = some v) : dcontains d k = true := by
  rw [dcontains_eq_isSome, h]
  rfl

theorem exists_dget?_of_dcontains (d : Dict α) (k : String)
    (h : dcontains d k = true) : ∃ v, dget? d k = some v := by
  rw [dcontains_eq_isSome] at h
  cases hg : dget? d k
  · rw [hg] at h
    exact absurd h (by simp)
  · exact ⟨_, rfl⟩

theorem dget?_eq_none_of_dcontains_false (d : Dict α) (k : String)
    (h : dcontains d k = false) : dget? d k = none := by
  rw [dcontains_eq_isSome] at h
  cases hg : dget? d k
  · rfl
  · rw [hg] at h
    exact absurd h (by simp)

theorem mem_dkeys_dset_self (d : Dict α) (k : String) (v : α) :
    k ∈ dkeys (dset d k v) := by
  rw [← dcontains_iff]
  exact dcontains_of_dget? _ _ _ (dget?_dset_self d k v)

theorem dkeys_dset_append (d : Dict α) (k : String) (v : α)
    (h : dcontains d k = false) : dkeys (dset d k v) = dkeys d ++ [k] := by
  rw [dset_eq_append_of_not_contains _ _ _ h]
  simp [dkeys]

theorem dkeys_dset_nodup (d : Dict α) (k : String) (v : α)
    (h : (dkeys d).Nodup) : (dkeys (dset d k v)).Nodup := by
  cases hc : dcontains d k
  · rw [dkeys_dset_append _ _ _ hc]
    have hk : k ∉ dkeys d := by
      intro hm
      rw [← dcontains_iff] at hm
      rw [hc] at hm
      exact Bool.false_ne_true hm
    refine h.append (List.nodup_singleton k) ?_
    intro a ha hb
    rw [List.mem_singleton] at hb
    subst hb
    exact hk ha
  · rw [dkeys_dset_of_contains _ _ _ hc]
    exact h

theorem dict_ext (d1 d2 : Dict α) (hnd : (dkeys d1).Nodup)
    (hk : dkeys d1 = dkeys d2) (hv : ∀ k, dget? d1 k = dget? d2 k) :
    d1 = d2 := by
  induction d1 generalizing d2 with
  | nil =>
    cases d2 with
    | nil => rfl
    | cons q rest2 => simp [dkeys_nil, dkeys_cons] at hk
  | cons p rest ih =>
    obtain ⟨k, v⟩ := p
    cases d2 with
    | nil => simp [dkeys_nil, dkeys_cons] at hk
    | cons q rest2 =>
      obtain ⟨k2, v2⟩ := q
      simp only [dkeys_cons] at hk
      injection hk with hk1 hk2
      subst hk1
      have hval : v = v2 := by
        have hvk := hv k
        simp [dget?_cons] at hvk
        exact hvk
      subst hval
      simp only [dkeys_cons, List.nodup_cons] at hnd
      have htail : rest = rest2 := by
        refine ih rest2 hnd.2 hk2 ?_
        intro k'
        by_cases hkk : k' = k
        · subst hkk
          rw [(dget?_eq_none_iff _ _).2 hnd.1,
            (dget?_eq_none_iff _ _).2 (hk2 ▸ hnd.1)]
        · have hvk := hv k'
          simpa [dget?_cons, Ne.symm hkk] using hvk
      rw [htail]

theorem applyConfiguration_nil (r : Record) : applyConfiguration r [] = r := rfl

theorem applyConfiguration_cons (r : Record) (kv : String × PyVal)
    (rest : Dict PyVal) :
    applyConfiguration r (kv :: rest) =
      applyConfiguration (if dcontains r kv.1 then dset r kv.1 kv.2 else r)
        rest := rfl

theorem configValue_nil (k : String) (v : PyVal) : configValue [] k v = v := rfl

theorem configValue_cons (kv : String × PyVal) (rest : Dict PyVal)
    (k : String) (v : PyVal) :
    configValue (kv :: rest) k v =
      configValue rest k (if kv.1 == k then kv.2 else v) := rfl

theorem lastVal?_cons (kv : String × PyVal) (rest : Dict PyVal) (k : String) :
    lastVal? (kv :: rest) k =
      match lastVal? rest k with
      | some v => some v
      | none => if kv.1 == k then some kv.2 else none := rfl

theorem configValue_eq_lastVal (cfg : Dict PyVal) (k : String) (v : PyVal) :
    configValue cfg k v = (lastVal? cfg k).getD v := by
  induction cfg generalizing v with
  | nil => rfl
  | cons kv rest ih =>
    rw [configValue_cons, ih, lastVal?_cons]
    cases h : lastVal? rest k with
    | some w => simp
    | none =>
      by_cases h1 : kv.1 == k
      · simp [h1]
      · simp [h1]

theorem configValue_idem (cfg : Dict PyVal) (k : String) (v : PyVal) :
    configValue cfg k (configValue cfg k v) = configValue cfg k v := by
  simp only [configValue_eq_lastVal]
  cases h : lastVal? cfg k <;> simp

theorem dkeys_applyConfiguration (cfg : Dict PyVal) (r : Record) :
    dkeys (applyConfiguration r cfg) = dkeys r := by
  induction cfg generalizing r with
  | nil => rfl
  | cons kv rest ih =>
    rw [applyConfiguration_cons]
    by_cases h : dcontains r kv.1
    · rw [if_pos h, ih, dkeys_dset_of_contains _ _ _ h]
    · rw [if_neg h, ih]

theorem dget?_applyConfiguration (cfg : Dict PyVal) (r : Record) (k : String) :
    dget? (applyConfiguration r cfg) k =
      (dget? r k).map (fun v => configValue cfg k v) := by
  induction cfg generalizing r with
  | nil =>
    rw [applyConfiguration_nil]
    cases dget? r k <;> rfl
  | cons kv rest ih =>
    rw [applyConfiguration_cons]
    by_cases hc : dcontains r kv.1
    · rw [if_pos hc, ih]
      by_cases hk : kv.1 = k
      · subst hk
        obtain ⟨v0, hv0⟩ := exists_dget?_of_dcontains _ _ hc
        rw [dget?_dset_self, hv0]
        simp [configValue_cons]
      · rw [dget?_dset_ne _ _ _ _ (Ne.symm hk)]
        cases dget? r k <;> simp [configValue_cons, hk]
    · rw [if_neg hc, ih]
      by_cases hk : kv.1 = k
      · subst hk
        rw [dget?_eq_none_of_dcontains_false _ _
          (by cases h : dcontains r kv.1; rfl; exact absurd h hc)]
        rfl
      · cases dget? r k <;> simp [configValue_cons, hk]

theorem digitChar_inj_lt :
    ∀ a, a < 10 → ∀ b, b < 10 → Nat.digitChar a = Nat.digitChar b → a = b := by
  decide

theorem toDigitsCore_eq_digits (fuel : Nat) :
    ∀ (n : Nat) (ds : List Char), 0 < n → n < 10 ^ fuel →
      Nat.toDigitsCore 10 fuel n ds =
        ((Nat.digits 10 n).map Nat.digitChar).reverse ++ ds := by
  induction fuel with
  | zero =>
    intro n ds hn hfuel
    exact absurd hfuel (by simpa using Nat.not_lt.2 hn)
  | succ fuel ih =>
    intro n ds hn hfuel
    have step : Nat.toDigitsCore 10 (fuel + 1) n ds =
        if n / 10 = 0 then Nat.digitChar (n % 10) :: ds
        else Nat.toDigitsCore 10 fuel (n / 10) (Nat.digitChar (n % 10) :: ds) :=
      rfl
    rw [step]
    by_cases hq : n / 10 = 0
    · have hlt : n < 10 := (Nat.div_eq_zero_iff (by norm_num)).1 hq
      rw [if_pos hq,
        Nat.digits_of_lt 10 n (Nat.pos_iff_ne_zero.1 hn) hlt,
        Nat.mod_eq_of_lt hlt]
      simp
    · have hpos : 0 < n / 10 := Nat.pos_of_ne_zero hq
      have hlt2 : n / 10 < 10 ^ fuel := by
        apply Nat.div_lt_of_lt_mul
        rw [pow_succ] at hfuel
        omega
      rw [if_neg hq, ih (n / 10) _ hpos hlt2,
        Nat.digits_def' (by norm_num : (1 : ℕ) < 10) hn]
      simp

theorem repr_eq_digits (n : Nat) (hn : 0 < n) :
    Nat.repr n = (((Nat.digits 10 n).map Nat.digitChar).reverse).asString := by
  have hlt : n < 10 ^ (n + 1) :=
    lt_of_lt_of_le (Nat.lt_pow_self (by norm_num) n)
      (Nat.pow_le_pow_right (by norm_num) (Nat.le_succ n))
  show (Nat.toDigits 10 n).asString = _
  unfold Nat.toDigits
  rw [toDigitsCore_eq_digits (n + 1) n [] hn hlt]
  simp

theorem asString_inj (l1 l2 : List Char) (h : l1.asString = l2.asString) :
    l1 = l2 :=
  congrArg String.data h

theorem map_digitChar_inj :
    ∀ l1 : List Nat, (∀ a ∈ l1, a < 10) → ∀ l2 : List Nat,
      (∀ a ∈ l2, a < 10) → l1.map Nat.digitChar = l2.map Nat.digitChar →
      l1 = l2 := by
  intro l1
  induction l1 with
  | nil =>
    intro _ l2 _ h
    cases l2 with
    | nil => rfl
    | cons b t => simp at h
  | cons a t ih =>
    intro hb1 l2 hb2 h
    cases l2 with
    | nil => simp at h
    | cons b t2 =>
      simp only [List.map_cons, List.cons.injEq] at h
      have hab : a = b :=
        digitChar_inj_lt a (hb1 a (by simp)) b (hb2 b (by simp)) h.1
      have ht : t = t2 :=
        ih (fun x hx => hb1 x (by simp [hx])) t2
          (fun x hx => hb2 x (by simp [hx])) h.2
      rw [hab, ht]

theorem repr_ne_zero_of_pos (n : Nat) (hn : 0 < n) : Nat.repr n ≠ "0" := by
  intro h
  rw [repr_eq_digits n hn] at h
  have hdata := asString_inj _ _ (h.trans rfl)
  have hrev : (Nat.digits 10 n).map Nat.digitChar = ['0'] := by
    have := congrArg List.reverse hdata
    simpa using this
  have hsing : ∃ d, Nat.digits 10 n = [d] ∧ Nat.digitChar d = '0' := by
    cases hd : Nat.digits 10 n with
    | nil => rw [hd] at hrev; simp at hrev
    | cons d t =>
      rw [hd] at hrev
      simp only [List.map_cons, List.cons.injEq] at hrev
      exact ⟨d, by simp [List.map_eq_nil_iff.1 hrev.2], hrev.1⟩
  obtain ⟨d, hd, hdc⟩ := hsing
  have hdlt : d < 10 :=
    Nat.digits_lt_base (by norm_num) (by rw [hd]; simp)
  have hd0 : d = 0 :=
    digitChar_inj_lt d hdlt 0 (by norm_num) (by simpa using hdc)
  have : n = 0 := by
    have hof := Nat.ofDigits_digits 10 n
    rw [hd, hd0] at hof
    simpa [Nat.ofDigits] using hof.symm
  omega

theorem nat_repr_inj (m n : Nat) (h : Nat.repr m = Nat.repr n) : m = n := by
  rcases Nat.eq_zero_or_pos m with hm | hm <;>
    rcases Nat.eq_zero_or_pos n with hn | hn
  · rw [hm, hn]
  · subst hm
    exact absurd h.symm (repr_ne_zero_of_pos n hn)
  · subst hn
    exact absurd h (repr_ne_zero_of_pos m hm)
  · rw [repr_eq_digits m hm, repr_eq_digits n hn] at h
    have hdata := asString_inj _ _ h
    have hmap : (Nat.digits 10 m).map Nat.digitChar =
        (Nat.digits 10 n).map Nat.digitChar := by
      have := congrArg List.reverse hdata
      simpa using this
    have hdig : Nat.digits 10 m = Nat.digits 10 n :=
      map_digitChar_inj _
        (fun a ha => Nat.digits_lt_base (by norm_num) ha) _
        (fun a ha => Nat.digits_lt_base (by norm_num) ha) hmap
    exact Nat.digits.injective 10 hdig

theorem mkSandboxId_inj (m n : Nat) (h : mkSandboxId m = mkSandboxId n) :
    m = n := by
  unfold mkSandboxId at h
  have hdata := congrArg String.data h
  simp only [String.data_append] at hdata
  have hr : (Nat.repr m).data = (Nat.repr n).data :=
    List.append_cancel_left hdata
  exact nat_repr_inj m n (String.ext hr)

theorem create_sandbox_snd (s : RegState) (n t : String)
    (r : Option (Dict PyVal)) :
    (create_sandbox s n t r).2 =
      dset s (mkSandboxId (s.length + 1)) (create_sandbox s n t r).1 := rfl

theorem configure_sandbox_ok (s : RegState) (sid : String) (cfg : Dict PyVal)
    (r2 : Record) (s2 : RegState)
    (h : configure_sandbox s sid cfg = Except.ok (r2, s2)) :
    ∃ r0, dget? s sid = some r0 ∧
      r2 = dset (applyConfiguration r0 cfg) "status" (PyVal.vStr "configured") ∧
      s2 = dset s sid r2 := by
  unfold configure_sandbox at h
  cases hg : dget? s sid with
  | none =>
    rw [hg] at h
    exact absurd h (by simp)
  | some r0 =>
    rw [hg] at h
    simp only [Except.ok.injEq, Prod.mk.injEq] at h
    refine ⟨r0, rfl, h.1.symm, ?_⟩
    rw [← h.1]
    exact h.2.symm

theorem dkeys_applyOp_configure (s : RegState) (sid : String)
    (cfg : Dict PyVal) :
    dkeys (applyOp s (AgentOp.configureOp sid cfg)) = dkeys s := by
  show dkeys (match configure_sandbox s sid cfg with
    | Except.ok p => p.2
    | Except.error _ => s) = dkeys s
  cases hg : configure_sandbox s sid cfg with
  | error e => rfl
  | ok p =>
    obtain ⟨r0, hr0, _, hs2⟩ := configure_sandbox_ok s sid cfg p.1 p.2 hg
    show dkeys p.2 = dkeys s
    rw [hs2]
    exact dkeys_dset_of_contains _ _ _ (dcontains_of_dget? _ _ _ hr0)

theorem runOps_nil (s : RegState) : runOps s [] = s := rfl

theorem runOps_cons (s : RegState) (op : AgentOp) (rest : List AgentOp) :
    runOps s (op :: rest) = runOps (applyOp s op) rest := rfl

theorem issuedSuffixes_nil (s : RegState) : issuedSuffixes s [] = [] := rfl

theorem issuedSuffixes_create (s : RegState) (n t : String)
    (r : Option (Dict PyVal)) (rest : List AgentOp) :
    issuedSuffixes s (AgentOp.createOp n t r :: rest) =
      (s.length + 1) ::
        issuedSuffixes (applyOp s (AgentOp.createOp n t r)) rest := rfl

theorem issuedSuffixes_configure (s : RegState) (sid : String)
    (cfg : Dict PyVal) (rest : List AgentOp) :
    issuedSuffixes s (AgentOp.configureOp sid cfg :: rest) =
      issuedSuffixes (applyOp s (AgentOp.configureOp sid cfg)) rest := rfl

theorem pairwise_lt_range'_1 (s n : Nat) :
    List.Pairwise (fun a b => a < b) (List.range' s n) := by
  rw [← List.chain'_iff_pairwise]
  cases n with
  | zero => exact trivial
  | succ m =>
    rw [List.range'_succ]
    exact List.chain_lt_range' s m (by norm_num)

theorem registry_keys_invariant :
    ∀ (ops : List AgentOp) (s : RegState) (k : Nat),
      noDeletes ops = true →
      dkeys s = (List.range' 1 k).map mkSandboxId →
      issuedSuffixes s ops = List.range' (k + 1) (countCreates ops) ∧
      dkeys (runOps s ops) =
        (List.range' 1 (k + countCreates ops)).map mkSandboxId := by
  intro ops
  induction ops with
  | nil =>
    intro s k _ hk
    exact ⟨rfl, by simpa using hk⟩
  | cons op rest ih =>
    intro s k hnd hk
    have hnd' : noDeletes rest = true := by
      simp only [noDeletes, List.all_cons, Bool.and_eq_true] at hnd
      exact hnd.2
    cases op with
    | createOp n t r =>
      have hlen : s.length = k := by
        have hlen0 := congrArg List.length hk
        simpa [dkeys_length] using hlen0
      have hfresh : dcontains s (mkSandboxId (s.length + 1)) = false := by
        rw [hlen]
        cases hc : dcontains s (mkSandboxId (k + 1))
        · rfl
        · exfalso
          have hmem := (dcontains_iff _ _).1 hc
          rw [hk] at hmem
          simp only [List.mem_map] at hmem
          obtain ⟨i, hi, hieq⟩ := hmem
          have hik : i = k + 1 := mkSandboxId_inj _ _ hieq
          rw [List.mem_range'] at hi
          obtain ⟨j, hj, hje⟩ := hi
          omega
      have hkeys' : dkeys (applyOp s (AgentOp.createOp n t r)) =
          (List.range' 1 (k + 1)).map mkSandboxId := by
        show dkeys (dset s (mkSandboxId (s.length + 1))
          (create_sandbox s n t r).1) = _
        rw [dkeys_dset_append _ _ _ hfresh, hk, hlen, List.range'_concat]
        rw [show 1 + 1 * k = k + 1 from by omega]
        simp
      obtain ⟨ih1, ih2⟩ := ih (applyOp s (AgentOp.createOp n t r)) (k + 1)
        hnd' hkeys'
      constructor
      · rw [issuedSuffixes_create, hlen, ih1,
          show countCreates (AgentOp.createOp n t r :: rest) =
            countCreates rest + 1 from rfl,
          List.range'_succ]
      · rw [runOps_cons, ih2,
          show countCreates (AgentOp.createOp n t r :: rest) =
            countCreates rest + 1 from rfl,
          show k + 1 + countCreates rest = k + (countCreates rest + 1) from
            by omega]
    | configureOp sid cfg =>
      have hkeys' : dkeys (applyOp s (AgentOp.configureOp sid cfg)) =
          (List.range' 1 k).map mkSandboxId := by
        rw [dkeys_applyOp_configure]
        exact hk
      obtain ⟨ih1, ih2⟩ := ih (applyOp s (AgentOp.configureOp sid cfg)) k
        hnd' hkeys'
      have hcc : countCreates (AgentOp.configureOp sid cfg :: rest) =
          countCreates rest := rfl
      exact ⟨by rw [issuedSuffixes_configure, ih1, hcc],
        by rw [runOps_cons, hcc]; exact ih2⟩
    | deleteOp sid =>
      simp [noDeletes, List.all_cons, isDeleteOp] at hnd

theorem dget?_dset_cases (d : Dict α) (k sid : String) (v : α) (r : α)
    (h : dget? (dset d k v) sid = some r) :
    (sid = k ∧ r = v) ∨ (sid ≠ k ∧ dget? d sid = some r) := by
  by_cases hk : sid = k
  · subst hk
    rw [dget?_dset_self] at h
    exact Or.inl ⟨rfl, (Option.some.inj h).symm⟩
  · rw [dget?_dset_ne _ _ _ _ hk] at h
    exact Or.inr ⟨hk, h⟩

theorem dkeys_ddel_sublist (d : Dict α) (k : String) :
    List.Sublist (dkeys (ddel d k)) (dkeys d) := by
  induction d with
  | nil => exact List.Sublist.refl _
  | cons p rest ih =>
    obtain ⟨k', v'⟩ := p
    by_cases h : k' = k
    · subst h
      rw [show ddel ((k', v') :: rest) k' = rest from by simp [ddel_cons]]
      exact List.sublist_cons_self _ _
    · rw [show ddel ((k', v') :: rest) k = (k', v') :: ddel rest k from
        by simp [ddel_cons, h]]
      exact List.Sublist.cons₂ _ ih

theorem dget?_ddel_of_nodup (d : Dict α) (k sid : String) (r : α)
    (hnd : (dkeys d).Nodup) (h : dget? (ddel d k) sid = some r) :
    dget? d sid = some r := by
  induction d with
  | nil => simpa [ddel_nil] using h
  | cons p rest ih =>
    obtain ⟨k', v'⟩ := p
    simp only [dkeys_cons, List.nodup_cons] at hnd
    by_cases h0 : k' = k
    · subst h0
      rw [show ddel ((k', v') :: rest) k' = rest from by simp [ddel_cons]] at h
      by_cases hs : k' = sid
      · subst hs
        have : dget? rest k' = none :=
          (dget?_eq_none_iff _ _).2 hnd.1
        rw [this] at h
        exact absurd h (by simp)
      · rw [dget?_cons, if_neg (by simpa using hs)]
        exact h
    · rw [show ddel ((k', v') :: rest) k = (k', v') :: ddel rest k from
        by simp [ddel_cons, h0]] at h
      rw [dget?_cons] at h ⊢
      by_cases hs : k' = sid
      · simpa [hs] using h
      · rw [if_neg (by simpa using hs)] at h ⊢
        exact ih hnd.2 h

/-- Well-formedness invariant of the registry: starting from a state
whose ids are pairwise distinct and whose records all carry a `status`
field with pairwise distinct field names, every tool call preserves
this.  In particular it holds in every state reachable from the empty
registry, which justifies the `status`-field and key-distinctness
hypotheses of the configure theorems. -/
theorem state_wellformed_invariant :
    ∀ (ops : List AgentOp) (s : RegState),
      (dkeys s).Nodup →
      (∀ sid r, dget? s sid = some r →
        dcontains r "status" = true ∧ (dkeys r).Nodup) →
      (dkeys (runOps s ops)).Nodup ∧
      (∀ sid r, dget? (runOps s ops) sid = some r →
        dcontains r "status" = true ∧ (dkeys r).Nodup) := by
  intro ops
  induction ops with
  | nil =>
    intro s h1 h2
    exact ⟨h1, h2⟩
  | cons op rest ih =>
    intro s h1 h2
    rw [runOps_cons]
    cases op with
    | createOp n t ropt =>
      apply ih
      · show (dkeys (dset s (mkSandboxId (s.length + 1))
          (create_sandbox s n t ropt).1)).Nodup
        exact dkeys_dset_nodup _ _ _ h1
      · intro sid r hr
        rcases dget?_dset_cases _ _ _ _ _ hr with ⟨_, rfl⟩ | ⟨_, hold⟩
        · constructor
          · rfl
          · show (["id", "name", "template", "resources", "status",
              "url"] : List String).Nodup
            decide
        · exact h2 sid r hold
    | configureOp sid0 cfg =>
      apply ih
      · show (dkeys (match configure_sandbox s sid0 cfg with
          | Except.ok p => p.2
          | Except.error _ => s)).Nodup
        cases hg : configure_sandbox s sid0 cfg with
        | error e => exact h1
        | ok p =>
          show (dkeys p.2).Nodup
          obtain ⟨r0, hr0, _, hs2⟩ := configure_sandbox_ok _ _ _ _ _ hg
          rw [hs2]
          rw [show dkeys (dset s sid0 p.1) = dkeys s from
            dkeys_dset_of_contains _ _ _ (dcontains_of_dget? _ _ _ hr0)]
          exact h1
      · intro sid r hr
        revert hr
        show dget? (match configure_sandbox s sid0 cfg with
          | Except.ok p => p.2
          | Except.error _ => s) sid = some r → _
        cases hg : configure_sandbox s sid0 cfg with
        | error e => exact fun hr => h2 sid r hr
        | ok p =>
          intro hr
          have hr2 : dget? p.2 sid = some r := hr
          obtain ⟨r0, hr0, hp1, hs2⟩ := configure_sandbox_ok _ _ _ _ _ hg
          rw [hs2] at hr2
          rcases dget?_dset_cases _ _ _ _ _ hr2 with ⟨_, rfl⟩ | ⟨_, hold⟩
          · constructor
            · rw [hp1]
              exact dcontains_of_dget? _ _ _ (dget?_dset_self _ _ _)
            · rw [hp1]
              apply dkeys_dset_nodup
              rw [dkeys_applyConfiguration]
              exact (h2 sid0 r0 hr0).2
          · exact h2 sid r hold
    | deleteOp sid0 =>
      apply ih
      · show (dkeys (match delete_sandbox s sid0 with
          | Except.ok p => p.2
          | Except.error _ => s)).Nodup
        cases hg : delete_sandbox s sid0 with
        | error e => exact h1
        | ok p =>
          show (dkeys p.2).Nodup
          unfold delete_sandbox at hg
          by_cases hc : dcontains s sid0 = true
          · rw [if_pos hc] at hg
            have hg2 := Except.ok.inj hg
            rw [← hg2]
            exact h1.sublist (dkeys_ddel_sublist s sid0)
          · rw [if_neg hc] at hg
            exact absurd hg (by simp)
      · intro sid r hr
        revert hr
        show dget? (match delete_sandbox s sid0 with
          | Except.ok p => p.2
          | Except.error _ => s) sid = some r → _
        cases hg : delete_sandbox s sid0 with
        | error e => exact fun hr => h2 sid r hr
        | ok p =>
          intro hr
          have hr2 : dget? p.2 sid = some r := hr
          unfold delete_sandbox at hg
          by_cases hc : dcontains s sid0 = true
          · rw [if_pos hc] at hg
            have hg2 := Except.ok.inj hg
            rw [← hg2] at hr2
            exact h2 sid r (dget?_ddel_of_nodup _ _ _ _ h1 hr2)
          · rw [if_neg hc] at hg
            exact absurd hg (by simp)

/-- Every record stored in a registry reachable from the empty registry
has a `status` field and pairwise distinct field names. -/
theorem stored_record_wellformed (ops : List AgentOp) (sid : String)
    (r : Record) (h : dget? (runOps [] ops) sid = some r) :
    dcontains r "status" = true ∧ (dkeys r).Nodup :=
  (state_wellformed_invariant ops [] (by simp [dkeys_nil])
    (by intro sid' r' h'; simp [dget?_nil] at h')).2 sid r h

/-- C1, counterexample: `create_sandbox` derives the id suffix from the
current registry size, not from a count of creates.  After create and
delete, the next create reissues suffix 1: the issued ids are
`sandbox-1, sandbox-1`, the suffixes `1, 1` are not monotonically
increasing, and the second issued id is not `sandbox-2` (the count of
sandboxes created so far plus one would be 2). -/
theorem claim_C1_counterexample :
    (issuedSuffixes []
        [AgentOp.createOp "a" "python-dev" none,
         AgentOp.deleteOp "sandbox-1",
         AgentOp.createOp "b" "python-dev" none]).map mkSandboxId =
      ["sandbox-1", "sandbox-1"] ∧
    ¬ List.Pairwise (fun a b => a < b)
        (issuedSuffixes []
          [AgentOp.createOp "a" "python-dev" none,
           AgentOp.deleteOp "sandbox-1",
           AgentOp.createOp "b" "python-dev" none]) ∧
    "sandbox-1" ≠ "sandbox-2" := by
  have he : issuedSuffixes []
      [AgentOp.createOp "a" "python-dev" none,
       AgentOp.deleteOp "sandbox-1",
       AgentOp.createOp "b" "python-dev" none] = [1, 1] := rfl
  refine ⟨rfl, ?_, by decide⟩
  rw [he]
  simp

/-- C1 (amended): `create_sandbox` assigns the id `sandbox-<n>` where
`n` is the number of sandboxes currently stored plus one.  For any call
sequence without deletes starting from an empty registry the issued
suffixes are exactly `1, 2, 3, ...` in order, hence strictly
increasing; in particular three sequential creates on an empty registry
yield `sandbox-1`, `sandbox-2`, `sandbox-3`.  (An interleaved delete
shrinks the stored count and can make a suffix repeat.) -/
theorem claim_C1_amended :
    (∀ (s : RegState) (n t : String) (r : Option (Dict PyVal)),
        dget? (create_sandbox s n t r).1 "id" =
          some (PyVal.vStr (mkSandboxId (s.length + 1)))) ∧
    (∀ ops : List AgentOp, noDeletes ops = true →
        issuedSuffixes [] ops = List.range' 1 (countCreates ops) ∧
        List.Pairwise (fun a b => a < b) (issuedSuffixes [] ops)) ∧
    (issuedSuffixes []
        [AgentOp.createOp "s1" "python-dev" none,
         AgentOp.createOp "s2" "python-dev" none,
         AgentOp.createOp "s3" "python-dev" none]).map mkSandboxId =
      ["sandbox-1", "sandbox-2", "sandbox-3"] := by
  refine ⟨fun s n t r => rfl, ?_, rfl⟩
  intro ops hnd
  have h := registry_keys_invariant ops [] 0 hnd (by simp [dkeys_nil])
  refine ⟨h.1, ?_⟩
  rw [h.1]
  exact pairwise_lt_range'_1 _ _

/-- Witness for C1 (amended): a concrete delete-free call sequence
(create, configure, create) issues suffixes 1, 2 in strictly increasing
order. -/
theorem claim_C1_amended_witness :
    noDeletes
        [AgentOp.createOp "a" "python-dev" none,
         AgentOp.configureOp "sandbox-1" [("cpu", PyVal.vStr "2")],
         AgentOp.createOp "b" "python-dev" none] = true ∧
    issuedSuffixes []
        [AgentOp.createOp "a" "python-dev" none,
         AgentOp.configureOp "sandbox-1" [("cpu", PyVal.vStr "2")],
         AgentOp.createOp "b" "python-dev" none] =
      List.range' 1
        (countCreates
          [AgentOp.createOp "a" "python-dev" none,
           AgentOp.configureOp "sandbox-1" [("cpu", PyVal.vStr "2")],
           AgentOp.createOp "b" "python-dev" none]) ∧
    List.Pairwise (fun a b => a < b)
        (issuedSuffixes []
          [AgentOp.createOp "a" "python-dev" none,
           AgentOp.configureOp "sandbox-1" [("cpu", PyVal.vStr "2")],
           AgentOp.createOp "b" "python-dev" none]) :=
  ⟨rfl,
   (claim_C1_amended.2.1
     [AgentOp.createOp "a" "python-dev" none,
      AgentOp.configureOp "sandbox-1" [("cpu", PyVal.vStr "2")],
      AgentOp.createOp "b" "python-dev" none] rfl).1,
   (claim_C1_amended.2.1
     [AgentOp.createOp "a" "python-dev" none,
      AgentOp.configureOp "sandbox-1" [("cpu", PyVal.vStr "2")],
      AgentOp.createOp "b" "python-dev" none] rfl).2⟩

/-- C2: a newly constructed agent instance starts with its own empty
sandbox mapping, and any sequence of registry operations run on one
instance is invisible through `list_sandboxes` (or any lookup) on every
other instance. -/
theorem claim_C2 :
    ∀ (p : AgentProcess) (i j : Nat) (ops : List AgentOp), i ≠ j →
      constructAgent p i i = [] ∧
      list_sandboxes (constructAgent p i i) = [] ∧
      runOpsOn (constructAgent p i) i ops j = p j ∧
      list_sandboxes (runOpsOn (constructAgent p i) i ops j) =
        list_sandboxes (p j) := by
  intro p i j ops hij
  have h1 : constructAgent p i i = [] := by simp [constructAgent]
  have h2 : runOpsOn (constructAgent p i) i ops j = p j := by
    simp [runOpsOn, constructAgent, Ne.symm hij]
  exact ⟨h1, by rw [h1]; rfl, h2, by rw [h2]⟩

/-- Witness for C2: instance 1 still lists nothing after instance 0
creates a sandbox. -/
theorem claim_C2_witness :
    (0 : Nat) ≠ 1 ∧
    runOpsOn (constructAgent (fun _ => []) 0) 0
        [AgentOp.createOp "a" "python-dev" none] 1 =
      (fun _ => ([] : RegState)) 1 :=
  ⟨by decide,
   (claim_C2 (fun _ => []) 0 1 [AgentOp.createOp "a" "python-dev" none]
      (by decide)).2.2.1⟩

/-- C5: `create_sandbox` is total (no catalog validation), stores the
new record, and returns a record carrying the given name and template,
status `creating`, the derived url, and resources defaulting to the
empty mapping; on an empty registry the url is
`https://sandbox-1.example.com`. -/
theorem claim_C5 :
    (∀ (s : RegState) (name template : String)
        (resources : Option (Dict PyVal)),
      dget? (create_sandbox s name template resources).1 "name" =
          some (PyVal.vStr name) ∧
      dget? (create_sandbox s name template resources).1 "template" =
          some (PyVal.vStr template) ∧
      dget? (create_sandbox s name template resources).1 "status" =
          some (PyVal.vStr "creating") ∧
      dget? (create_sandbox s name template resources).1 "url" =
          some (PyVal.vStr ("https://" ++ mkSandboxId (s.length + 1) ++
            ".example.com")) ∧
      dget? (create_sandbox s name template resources).1 "resources" =
          some (PyVal.vDict (resources.getD [])) ∧
      (create_sandbox s name template resources).2 =
        dset s (mkSandboxId (s.length + 1))
          (create_sandbox s name template resources).1) ∧
    dget? (create_sandbox [] "s1" "python-dev" none).1 "url" =
      some (PyVal.vStr "https://sandbox-1.example.com") ∧
    dget? (create_sandbox [] "s1" "python-dev" none).1 "resources" =
      some (PyVal.vDict []) ∧
    dget? (create_sandbox [] "s1" "python-dev" none).1 "status" =
      some (PyVal.vStr "creating") :=
  ⟨fun _ _ _ _ => ⟨rfl, rfl, rfl, rfl, rfl, rfl⟩,
   rfl, rfl, rfl⟩

/-- C6: `list_sandboxes` returns the stored records in insertion order;
it is empty on a fresh registry, a create with a fresh id appends its
record at the end, and two creates on an empty registry list exactly the
two records in creation order. -/
theorem claim_C6 :
    (∀ s : RegState, list_sandboxes s = dvalues s) ∧
    list_sandboxes [] = [] ∧
    (∀ (s : RegState) (n t : String) (r : Option (Dict PyVal)),
        dcontains s (mkSandboxId (s.length + 1)) = false →
        list_sandboxes (create_sandbox s n t r).2 =
          list_sandboxes s ++ [(create_sandbox s n t r).1]) ∧
    list_sandboxes (runOps []
        [AgentOp.createOp "s1" "python-dev" none,
         AgentOp.createOp "s2" "node-dev" none]) =
      [(create_sandbox [] "s1" "python-dev" none).1,
       (create_sandbox (create_sandbox [] "s1" "python-dev" none).2
          "s2" "node-dev" none).1] := by
  refine ⟨fun s => rfl, rfl, ?_, rfl⟩
  intro s n t r h
  rw [create_sandbox_snd, dset_eq_append_of_not_contains _ _ _ h]
  simp [list_sandboxes, dvalues]

/-- Witness for C6: on the empty registry the freshness hypothesis holds
and the created record is appended. -/
theorem claim_C6_witness :
    dcontains ([] : RegState)
        (mkSandboxId ((List.length ([] : RegState)) + 1)) = false ∧
    list_sandboxes (create_sandbox [] "a" "python-dev" none).2 =
      list_sandboxes ([] : RegState) ++
        [(create_sandbox [] "a" "python-dev" none).1] :=
  ⟨rfl, claim_C6.2.2.1 [] "a" "python-dev" none rfl⟩

/-- C3: on a stored id, `configure_sandbox` succeeds; it overwrites
exactly the fields whose names occur as configuration keys (a stored
field ends at the last configured value, or keeps its old value when its
name is not a configuration key), drops configuration keys that are not
field names, unconditionally ends with `status = "configured"`, stores
the updated record back at the id and returns it. -/
theorem claim_C3 :
    ∀ (s : RegState) (sandbox_id : String) (configuration : Dict PyVal)
      (r0 : Record),
      dget? s sandbox_id = some r0 →
      dcontains r0 "status" = true →
      ∃ r2, configure_sandbox s sandbox_id configuration =
          Except.ok (r2, dset s sandbox_id r2) ∧
        dget? (dset s sandbox_id r2) sandbox_id = some r2 ∧
        dget? r2 "status" = some (PyVal.vStr "configured") ∧
        (∀ k, k ≠ "status" →
          dget? r2 k =
            (dget? r0 k).map
              (fun v => (lastVal? configuration k).getD v)) ∧
        (∀ k, dcontains r0 k = false → dcontains r2 k = false) := by
  intro s sid cfg r0 h1 h2
  refine ⟨dset (applyConfiguration r0 cfg) "status" (PyVal.vStr "configured"),
    ?_, dget?_dset_self _ _ _, dget?_dset_self _ _ _, ?_, ?_⟩
  · unfold configure_sandbox
    rw [h1]
  · intro k hk
    rw [dget?_dset_ne _ _ _ _ hk, dget?_applyConfiguration]
    cases dget? r0 k <;> simp [configValue_eq_lastVal]
  · intro k hk
    have hkstat : k ≠ "status" := by
      intro he
      subst he
      rw [h2] at hk
      exact absurd hk (by simp)
    rw [dcontains_eq_isSome, dget?_dset_ne _ _ _ _ hkstat,
      dget?_applyConfiguration, dget?_eq_none_of_dcontains_false _ _ hk]
    rfl

/-- Witness for C3: the spec's example.  Configuring the first created
sandbox with `status: x` and an unknown `bogus_field: y` yields a stored
record whose status is `configured` and which has no `bogus_field`. -/
theorem claim_C3_witness :
    dget? (create_sandbox [] "s1" "python-dev" none).2 "sandbox-1" =
      some (create_sandbox [] "s1" "python-dev" none).1 ∧
    dcontains (create_sandbox [] "s1" "python-dev" none).1 "status" = true ∧
    configure_sandbox (create_sandbox [] "s1" "python-dev" none).2
        "sandbox-1"
        [("status", PyVal.vStr "x"), ("bogus_field", PyVal.vStr "y")] =
      Except.ok
        ([("id", PyVal.vStr "sandbox-1"), ("name", PyVal.vStr "s1"),
          ("template", PyVal.vStr "python-dev"),
          ("resources", PyVal.vDict []),
          ("status", PyVal.vStr "configured"),
          ("url", PyVal.vStr "https://sandbox-1.example.com")],
         dset (create_sandbox [] "s1" "python-dev" none).2 "sandbox-1"
           [("id", PyVal.vStr "sandbox-1"), ("name", PyVal.vStr "s1"),
            ("template", PyVal.vStr "python-dev"),
            ("resources", PyVal.vDict []),
            ("status", PyVal.vStr "configured"),
            ("url", PyVal.vStr "https://sandbox-1.example.com")]) ∧
    dcontains
        [("id", PyVal.vStr "sandbox-1"), ("name", PyVal.vStr "s1"),
         ("template", PyVal.vStr "python-dev"),
         ("resources", PyVal.vDict []),
         ("status", PyVal.vStr "configured"),
         ("url", PyVal.vStr "https://sandbox-1.example.com")]
        "bogus_field" = false := by
  obtain ⟨r2, ha, hb, hc, hd, he⟩ :=
    claim_C3 (create_sandbox [] "s1" "python-dev" none).2 "sandbox-1"
      [("status", PyVal.vStr "x"), ("bogus_field", PyVal.vStr "y")]
      (create_sandbox [] "s1" "python-dev" none).1 rfl rfl
  have hconf : configure_sandbox (create_sandbox [] "s1" "python-dev" none).2
      "sandbox-1"
      [("status", PyVal.vStr "x"), ("bogus_field", PyVal.vStr "y")] =
      Except.ok
        ([("id", PyVal.vStr "sandbox-1"), ("name", PyVal.vStr "s1"),
          ("template", PyVal.vStr "python-dev"),
          ("resources", PyVal.vDict []),
          ("status", PyVal.vStr "configured"),
          ("url", PyVal.vStr "https://sandbox-1.example.com")],
         dset (create_sandbox [] "s1" "python-dev" none).2 "sandbox-1"
           [("id", PyVal.vStr "sandbox-1"), ("name", PyVal.vStr "s1"),
            ("template", PyVal.vStr "python-dev"),
            ("resources", PyVal.vDict []),
            ("status", PyVal.vStr "configured"),
            ("url", PyVal.vStr "https://sandbox-1.example.com")]) := rfl
  have hr2 : r2 =
      [("id", PyVal.vStr "sandbox-1"), ("name", PyVal.vStr "s1"),
       ("template", PyVal.vStr "python-dev"),
       ("resources", PyVal.vDict []),
       ("status", PyVal.vStr "configured"),
       ("url", PyVal.vStr "https://sandbox-1.example.com")] := by
    rw [hconf] at ha
    simp only [Except.ok.injEq, Prod.mk.injEq] at ha
    exact ha.1.symm
  refine ⟨rfl, rfl, hconf, ?_⟩
  rw [← hr2]
  exact he "bogus_field" rfl

/-- C4: `configure_sandbox` and `delete_sandbox` fail with the not-found
error exactly when the id is absent, leaving the registry unchanged on
failure; on a key-distinct registry a successful delete removes the id,
so an immediately repeated delete fails with the not-found error. -/
theorem claim_C4 :
    ∀ (s : RegState) (sandbox_id : String) (configuration : Dict PyVal),
      (dcontains s sandbox_id = false →
        configure_sandbox s sandbox_id configuration =
          Except.error ("Sandbox " ++ sandbox_id ++ " not found") ∧
        delete_sandbox s sandbox_id =
          Except.error ("Sandbox " ++ sandbox_id ++ " not found") ∧
        applyOp s (AgentOp.configureOp sandbox_id configuration) = s ∧
        applyOp s (AgentOp.deleteOp sandbox_id) = s) ∧
      (dcontains s sandbox_id = true →
        (∃ p, configure_sandbox s sandbox_id configuration =
          Except.ok p) ∧
        (∃ q, delete_sandbox s sandbox_id = Except.ok q)) ∧
      ((dkeys s).Nodup →
        ∀ r s2, delete_sandbox s sandbox_id = Except.ok (r, s2) →
          delete_sandbox s2 sandbox_id =
            Except.error ("Sandbox " ++ sandbox_id ++ " not found")) := by
  intro s sid cfg
  refine ⟨?_, ?_, ?_⟩
  · intro h
    have hg : dget? s sid = none := dget?_eq_none_of_dcontains_false _ _ h
    have hcfg : configure_sandbox s sid cfg =
        Except.error ("Sandbox " ++ sid ++ " not found") := by
      unfold configure_sandbox
      rw [hg]
    have hdel : delete_sandbox s sid =
        Except.error ("Sandbox " ++ sid ++ " not found") := by
      unfold delete_sandbox
      rw [if_neg (by rw [h]; exact Bool.false_ne_true)]
    refine ⟨hcfg, hdel, ?_, ?_⟩
    · show (match configure_sandbox s sid cfg with
        | Except.ok p => p.2
        | Except.error _ => s) = s
      rw [hcfg]
    · show (match delete_sandbox s sid with
        | Except.ok p => p.2
        | Except.error _ => s) = s
      rw [hdel]
  · intro h
    obtain ⟨r0, hr0⟩ := exists_dget?_of_dcontains _ _ h
    constructor
    · refine ⟨(dset (applyConfiguration r0 cfg) "status"
        (PyVal.vStr "configured"),
        dset s sid (dset (applyConfiguration r0 cfg) "status"
          (PyVal.vStr "configured"))), ?_⟩
      unfold configure_sandbox
      rw [hr0]
    · refine ⟨([("status", "success"),
        ("message", "Sandbox " ++ sid ++ " deleted")], ddel s sid), ?_⟩
      unfold delete_sandbox
      rw [if_pos h]
  · intro hnd r s2 hdel
    unfold delete_sandbox at hdel
    by_cases h : dcontains s sid = true
    · rw [if_pos h] at hdel
      simp only [Except.ok.injEq, Prod.mk.injEq] at hdel
      have hs2 : s2 = ddel s sid := hdel.2.symm
      have hs2c : dcontains s2 sid = false := by
        rw [hs2]
        exact dcontains_ddel_self _ _ hnd
      unfold delete_sandbox
      rw [if_neg (by rw [hs2c]; exact Bool.false_ne_true)]
    · rw [if_neg h] at hdel
      exact absurd hdel (by simp)

/-- Witness for C4: with one stored sandbox, operations on the unknown
id `nope` fail and leave the state unchanged, and deleting `sandbox-1`
a second time (on the emptied registry) fails. -/
theorem claim_C4_witness :
    dcontains (create_sandbox [] "s1" "python-dev" none).2 "nope" = false ∧
    configure_sandbox (create_sandbox [] "s1" "python-dev" none).2 "nope"
        [("cpu", PyVal.vStr "2")] =
      Except.error ("Sandbox " ++ "nope" ++ " not found") ∧
    applyOp (create_sandbox [] "s1" "python-dev" none).2
        (AgentOp.deleteOp "nope") =
      (create_sandbox [] "s1" "python-dev" none).2 ∧
    (dkeys (create_sandbox [] "s1" "python-dev" none).2).Nodup ∧
    delete_sandbox [] "sandbox-1" =
      Except.error ("Sandbox " ++ "sandbox-1" ++ " not found") := by
  have h0 := (claim_C4 (create_sandbox [] "s1" "python-dev" none).2 "nope"
    [("cpu", PyVal.vStr "2")]).1 rfl
  have h3 := (claim_C4 (create_sandbox [] "s1" "python-dev" none).2
      "sandbox-1" []).2.2 (by decide)
      [("status", "success"),
       ("message", "Sandbox " ++ "sandbox-1" ++ " deleted")] [] rfl
  exact ⟨rfl, h0.1, h0.2.2.2, by decide, h3⟩

/-- C9: a successful `configure_sandbox` changes no field-name set: the
updated record has exactly the field names of the old record, the
registry keeps exactly the same ids, and every other record is left
untouched. -/
theorem claim_C9 :
    ∀ (s : RegState) (sandbox_id : String) (configuration : Dict PyVal)
      (r0 r2 : Record) (s2 : RegState),
      dget? s sandbox_id = some r0 →
      dcontains r0 "status" = true →
      configure_sandbox s sandbox_id configuration = Except.ok (r2, s2) →
      dkeys r2 = dkeys r0 ∧
      dkeys s2 = dkeys s ∧
      (∀ k, k ≠ sandbox_id → dget? s2 k = dget? s k) := by
  intro s sid cfg r0 r2 s2 h1 h2 hconf
  obtain ⟨r0', hr0', hr2, hs2⟩ := configure_sandbox_ok _ _ _ _ _ hconf
  have hr00 : r0' = r0 := by
    rw [h1] at hr0'
    exact (Option.some.inj hr0').symm
  subst hr00
  have hstat : dcontains (applyConfiguration r0' cfg) "status" = true := by
    rw [dcontains_iff, dkeys_applyConfiguration]
    exact (dcontains_iff _ _).1 h2
  refine ⟨?_, ?_, ?_⟩
  · rw [hr2, dkeys_dset_of_contains _ _ _ hstat, dkeys_applyConfiguration]
  · rw [hs2]
    exact dkeys_dset_of_contains _ _ _ (dcontains_of_dget? _ _ _ h1)
  · intro k hk
    rw [hs2]
    exact dget?_dset_ne _ _ _ _ hk

/-- Witness for C9: configuring `name` on the first created sandbox
keeps the record's field names and the registry's ids unchanged. -/
theorem claim_C9_witness :
    dget? (create_sandbox [] "s1" "python-dev" none).2 "sandbox-1" =
      some (create_sandbox [] "s1" "python-dev" none).1 ∧
    dcontains (create_sandbox [] "s1" "python-dev" none).1 "status" = true ∧
    dkeys
        [("id", PyVal.vStr "sandbox-1"), ("name", PyVal.vStr "renamed"),
         ("template", PyVal.vStr "python-dev"),
         ("resources", PyVal.vDict []),
         ("status", PyVal.vStr "configured"),
         ("url", PyVal.vStr "https://sandbox-1.example.com")] =
      dkeys (create_sandbox [] "s1" "python-dev" none).1 ∧
    dkeys (dset (create_sandbox [] "s1" "python-dev" none).2 "sandbox-1"
        [("id", PyVal.vStr "sandbox-1"), ("name", PyVal.vStr "renamed"),
         ("template", PyVal.vStr "python-dev"),
         ("resources", PyVal.vDict []),
         ("status", PyVal.vStr "configured"),
         ("url", PyVal.vStr "https://sandbox-1.example.com")]) =
      dkeys (create_sandbox [] "s1" "python-dev" none).2 := by
  have h := claim_C9 (create_sandbox [] "s1" "python-dev" none).2
    "sandbox-1" [("name", PyVal.vStr "renamed")]
    (create_sandbox [] "s1" "python-dev" none).1
    [("id", PyVal.vStr "sandbox-1"), ("name", PyVal.vStr "renamed"),
     ("template", PyVal.vStr "python-dev"),
     ("resources", PyVal.vDict []),
     ("status", PyVal.vStr "configured"),
     ("url", PyVal.vStr "https://sandbox-1.example.com")]
    (dset (create_sandbox [] "s1" "python-dev" none).2 "sandbox-1"
      [("id", PyVal.vStr "sandbox-1"), ("name", PyVal.vStr "renamed"),
       ("template", PyVal.vStr "python-dev"),
       ("resources", PyVal.vDict []),
       ("status", PyVal.vStr "configured"),
       ("url", PyVal.vStr "https://sandbox-1.example.com")])
    rfl rfl rfl
  exact ⟨rfl, rfl, h.1, h.2.1⟩

/-- C10: `configure_sandbox` is idempotent on a key-distinct stored
record: running the same configuration again returns the same record and
leaves the registry in the same state. -/
theorem claim_C10 :
    ∀ (s : RegState) (sandbox_id : String) (configuration : Dict PyVal)
      (r0 r1 : Record) (s1 : RegState),
      dget? s sandbox_id = some r0 →
      (dkeys r0).Nodup →
      configure_sandbox s sandbox_id configuration = Except.ok (r1, s1) →
      configure_sandbox s1 sandbox_id configuration =
        Except.ok (r1, s1) := by
  intro s sid cfg r0 r1 s1 h1 hnd hconf
  obtain ⟨r0', hr0', hr1, hs1⟩ := configure_sandbox_ok _ _ _ _ _ hconf
  have hr00 : r0' = r0 := by
    rw [h1] at hr0'
    exact (Option.some.inj hr0').symm
  subst hr00
  have hget1 : dget? s1 sid = some r1 := by
    rw [hs1]
    exact dget?_dset_self _ _ _
  have hstep : configure_sandbox s1 sid cfg =
      Except.ok
        (dset (applyConfiguration r1 cfg) "status" (PyVal.vStr "configured"),
         dset s1 sid
           (dset (applyConfiguration r1 cfg) "status"
             (PyVal.vStr "configured"))) := by
    unfold configure_sandbox
    rw [hget1]
  have hstatus_r1 : dcontains r1 "status" = true := by
    rw [hr1]
    exact dcontains_of_dget? _ _ _ (dget?_dset_self _ _ _)
  have hnd_r1 : (dkeys r1).Nodup := by
    rw [hr1]
    exact dkeys_dset_nodup _ _ _ (by rw [dkeys_applyConfiguration]; exact hnd)
  have hstatA1 : dcontains (applyConfiguration r1 cfg) "status" = true := by
    rw [dcontains_iff, dkeys_applyConfiguration]
    exact (dcontains_iff _ _).1 hstatus_r1
  have hkeys_eq :
      dkeys (dset (applyConfiguration r1 cfg) "status"
        (PyVal.vStr "configured")) = dkeys r1 := by
    rw [dkeys_dset_of_contains _ _ _ hstatA1, dkeys_applyConfiguration]
  have hvals : ∀ k,
      dget? (dset (applyConfiguration r1 cfg) "status"
        (PyVal.vStr "configured")) k = dget? r1 k := by
    intro k
    by_cases hk : k = "status"
    · subst hk
      rw [dget?_dset_self, hr1, dget?_dset_self]
    · rw [dget?_dset_ne _ _ _ _ hk, dget?_applyConfiguration]
      have h1k : dget? r1 k =
          (dget? r0' k).map (fun v => configValue cfg k v) := by
        rw [hr1, dget?_dset_ne _ _ _ _ hk, dget?_applyConfiguration]
      rw [h1k]
      cases dget? r0' k with
      | none => rfl
      | some v => simp [configValue_idem]
  have hfix : dset (applyConfiguration r1 cfg) "status"
      (PyVal.vStr "configured") = r1 :=
    dict_ext _ _ (by rw [hkeys_eq]; exact hnd_r1) hkeys_eq hvals
  rw [hstep, hfix, hs1, dset_dset_self]

/-- Witness for C10: repeating the `name` configuration of the C9
example returns the same record and state as running it once. -/
theorem claim_C10_witness :
    dget? (create_sandbox [] "s1" "python-dev" none).2 "sandbox-1" =
      some (create_sandbox [] "s1" "python-dev" none).1 ∧
    (dkeys (create_sandbox [] "s1" "python-dev" none).1).Nodup ∧
    configure_sandbox
        (dset (create_sandbox [] "s1" "python-dev" none).2 "sandbox-1"
          [("id", PyVal.vStr "sandbox-1"), ("name", PyVal.vStr "renamed"),
           ("template", PyVal.vStr "python-dev"),
           ("resources", PyVal.vDict []),
           ("status", PyVal.vStr "configured"),
           ("url", PyVal.vStr "https://sandbox-1.example.com")])
        "sandbox-1" [("name", PyVal.vStr "renamed")] =
      Except.ok
        ([("id", PyVal.vStr "sandbox-1"), ("name", PyVal.vStr "renamed"),
          ("template", PyVal.vStr "python-dev"),
          ("resources", PyVal.vDict []),
          ("status", PyVal.vStr "configured"),
          ("url", PyVal.vStr "https://sandbox-1.example.com")],
         dset (create_sandbox [] "s1" "python-dev" none).2 "sandbox-1"
           [("id", PyVal.vStr "sandbox-1"), ("name", PyVal.vStr "renamed"),
            ("template", PyVal.vStr "python-dev"),
            ("resources", PyVal.vDict []),
            ("status", PyVal.vStr "configured"),
            ("url", PyVal.vStr "https://sandbox-1.example.com")]) := by
  have h := claim_C10 (create_sandbox [] "s1" "python-dev" none).2
    "sandbox-1" [("name", PyVal.vStr "renamed")]
    (create_sandbox [] "s1" "python-dev" none).1
    [("id", PyVal.vStr "sandbox-1"), ("name", PyVal.vStr "renamed"),
     ("template", PyVal.vStr "python-dev"),
     ("resources", PyVal.vDict []),
     ("status", PyVal.vStr "configured"),
     ("url", PyVal.vStr "https://sandbox-1.example.com")]
    (dset (create_sandbox [] "s1" "python-dev" none).2 "sandbox-1"
      [("id", PyVal.vStr "sandbox-1"), ("name", PyVal.vStr "renamed"),
       ("template", PyVal.vStr "python-dev"),
       ("resources", PyVal.vDict []),
       ("status", PyVal.vStr "configured"),
       ("url", PyVal.vStr "https://sandbox-1.example.com")])
    rfl (by decide) rfl
  exact ⟨rfl, by decide, h⟩

/-- C7: the catalog ids are exactly `python-dev`, `node-dev`, `go-dev`
(pairwise distinct); for a template id occurring in the catalog,
`get_template_by_id` returns the unique catalog entry with that id; for
any other id (for example `nonexistent`) it fails with the not-found
error; and every successful lookup returns a record whose id field
equals the query. -/
theorem claim_C7 :
    DEFAULT_TEMPLATES.map (fun t => dget? t "id") =
      [some (PyVal.vStr "python-dev"), some (PyVal.vStr "node-dev"),
       some (PyVal.vStr "go-dev")] ∧
    (∀ (template_id : String) (t : Record), t ∈ DEFAULT_TEMPLATES →
        dget? t "id" = some (PyVal.vStr template_id) →
        get_template_by_id template_id = Except.ok t ∧
        (∀ t', t' ∈ DEFAULT_TEMPLATES →
          dget? t' "id" = some (PyVal.vStr template_id) → t' = t)) ∧
    (∀ template_id : String,
        (∀ t, t ∈ DEFAULT_TEMPLATES →
          dget? t "id" ≠ some (PyVal.vStr template_id)) →
        get_template_by_id template_id =
          Except.error ("Template with ID \x27" ++ template_id ++
            "\x27 not found")) ∧
    get_template_by_id "nonexistent" =
      Except.error ("Template with ID \x27nonexistent\x27 not found") ∧
    (∀ (template_id : String) (t : Record),
        get_template_by_id template_id = Except.ok t →
        dget? t "id" = some (PyVal.vStr template_id)) := by
  refine ⟨rfl, ?_, ?_, rfl, ?_⟩
  · intro tid t ht hid
    simp only [DEFAULT_TEMPLATES, List.mem_cons, List.mem_singleton,
      List.not_mem_nil, or_false] at ht
    rcases ht with rfl | rfl | rfl
    · have htid : "python-dev" = tid := by
        simpa [dget?_cons] using hid
      subst htid
      refine ⟨rfl, ?_⟩
      intro t' ht' hid'
      simp only [DEFAULT_TEMPLATES, List.mem_cons, List.mem_singleton,
        List.not_mem_nil, or_false] at ht'
      rcases ht' with rfl | rfl | rfl
      · rfl
      · simp [dget?_cons] at hid'
      · simp [dget?_cons] at hid'
    · have htid : "node-dev" = tid := by
        simpa [dget?_cons] using hid
      subst htid
      refine ⟨rfl, ?_⟩
      intro t' ht' hid'
      simp only [DEFAULT_TEMPLATES, List.mem_cons, List.mem_singleton,
        List.not_mem_nil, or_false] at ht'
      rcases ht' with rfl | rfl | rfl
      · simp [dget?_cons] at hid'
      · rfl
      · simp [dget?_cons] at hid'
    · have htid : "go-dev" = tid := by
        simpa [dget?_cons] using hid
      subst htid
      refine ⟨rfl, ?_⟩
      intro t' ht' hid'
      simp only [DEFAULT_TEMPLATES, List.mem_cons, List.mem_singleton,
        List.not_mem_nil, or_false] at ht'
      rcases ht' with rfl | rfl | rfl
      · simp [dget?_cons] at hid'
      · simp [dget?_cons] at hid'
      · rfl
  · intro tid htid
    have hfind : DEFAULT_TEMPLATES.find?
        (fun t => templateIdMatches t tid) = none := by
      rw [List.find?_eq_none]
      intro t ht hmatch
      have hne := htid t ht
      unfold templateIdMatches at hmatch
      cases hg : dget? t "id" with
      | none =>
        rw [hg] at hmatch
        exact absurd hmatch (by simp)
      | some v =>
        cases v with
        | vStr sv =>
          rw [hg] at hmatch
          simp only [beq_iff_eq] at hmatch
          exact hne (by rw [hg, hmatch])
        | vInt iv =>
          rw [hg] at hmatch
          exact absurd hmatch (by simp)
        | vList lv =>
          rw [hg] at hmatch
          exact absurd hmatch (by simp)
        | vDict dv =>
          rw [hg] at hmatch
          exact absurd hmatch (by simp)
    unfold get_template_by_id
    rw [hfind]
  · intro tid t h
    unfold get_template_by_id at h
    cases hf : DEFAULT_TEMPLATES.find? (fun u => templateIdMatches u tid) with
    | none =>
      rw [hf] at h
      exact absurd h (by simp)
    | some t0 =>
      rw [hf] at h
      have ht0 : t0 = t := by simpa using h
      subst ht0
      have hp := List.find?_some hf
      unfold templateIdMatches at hp
      cases hg : dget? t0 "id" with
      | none =>
        rw [hg] at hp
        exact absurd hp (by simp)
      | some v =>
        cases v with
        | vStr sv =>
          rw [hg] at hp
          simp only [beq_iff_eq] at hp
          rw [hp]
        | vInt iv =>
          rw [hg] at hp
          exact absurd hp (by simp)
        | vList lv =>
          rw [hg] at hp
          exact absurd hp (by simp)
        | vDict dv =>
          rw [hg] at hp
          exact absurd hp (by simp)

/-- Witness for C7: the catalog lookup of `python-dev` returns the
first template, whose id field equals the query. -/
theorem claim_C7_witness :
    get_template_by_id "python-dev" =
      Except.ok
        [("id", PyVal.vStr "python-dev"),
         ("name", PyVal.vStr "Python Development Environment"),
         ("description", PyVal.vStr
           "Environment for Python development with common tools and libraries"),
         ("base_image", PyVal.vStr "python:3.9"),
         ("installed_packages", PyVal.vList
           [PyVal.vStr "pytest", PyVal.vStr "black", PyVal.vStr "isort",
            PyVal.vStr "mypy", PyVal.vStr "flake8"]),
         ("setup_commands", PyVal.vList
           [PyVal.vStr "pip install -r requirements.txt"])] ∧
    dget?
        [("id", PyVal.vStr "python-dev"),
         ("name", PyVal.vStr "Python Development Environment"),
         ("description", PyVal.vStr
           "Environment for Python development with common tools and libraries"),
         ("base_image", PyVal.vStr "python:3.9"),
         ("installed_packages", PyVal.vList
           [PyVal.vStr "pytest", PyVal.vStr "black", PyVal.vStr "isort",
            PyVal.vStr "mypy", PyVal.vStr "flake8"]),
         ("setup_commands", PyVal.vList
           [PyVal.vStr "pip install -r requirements.txt"])] "id" =
      some (PyVal.vStr "python-dev") := by
  have h := (claim_C7.2.1 "python-dev"
    [("id", PyVal.vStr "python-dev"),
     ("name", PyVal.vStr "Python Development Environment"),
     ("description", PyVal.vStr
       "Environment for Python development with common tools and libraries"),
     ("base_image", PyVal.vStr "python:3.9"),
     ("installed_packages", PyVal.vList
       [PyVal.vStr "pytest", PyVal.vStr "black", PyVal.vStr "isort",
        PyVal.vStr "mypy", PyVal.vStr "flake8"]),
     ("setup_commands", PyVal.vList
       [PyVal.vStr "pip install -r requirements.txt"])]
    (by simp [DEFAULT_TEMPLATES]) rfl).1
  exact ⟨h, rfl⟩

/-- C8: `get_resource_config` succeeds exactly for `small`, `medium`
and `large`, each preset populating non-empty `cpu`, `memory` and
`disk`; any other label (for example `huge`) fails with the not-found
error. -/
theorem claim_C8 :
    (∀ size : String, (get_resource_config size).isOk =
        (size == "small" || size == "medium" || size == "large")) ∧
    (∀ (size : String) (cfg : Dict String),
        get_resource_config size = Except.ok cfg →
        ∃ c m d, dget? cfg "cpu" = some c ∧ c ≠ "" ∧
          dget? cfg "memory" = some m ∧ m ≠ "" ∧
          dget? cfg "disk" = some d ∧ d ≠ "") ∧
    (∀ size : String,
        size ≠ "small" → size ≠ "medium" → size ≠ "large" →
        get_resource_config size =
          Except.error ("Resource configuration \x27" ++ size ++
            "\x27 not found")) ∧
    get_resource_config "huge" =
      Except.error ("Resource configuration \x27huge\x27 not found") := by
  have herr : ∀ size : String,
      size ≠ "small" → size ≠ "medium" → size ≠ "large" →
      get_resource_config size =
        Except.error ("Resource configuration \x27" ++ size ++
          "\x27 not found") := by
    intro size h1 h2 h3
    have hg : dget? DEFAULT_RESOURCE_CONFIGS size = none := by
      simp [DEFAULT_RESOURCE_CONFIGS, dget?_cons, dget?_nil,
        Ne.symm h1, Ne.symm h2, Ne.symm h3]
    unfold get_resource_config
    rw [hg]
  refine ⟨?_, ?_, herr, rfl⟩
  · intro size
    by_cases h1 : size = "small"
    · subst h1; rfl
    by_cases h2 : size = "medium"
    · subst h2; rfl
    by_cases h3 : size = "large"
    · subst h3; rfl
    rw [herr size h1 h2 h3]
    simp [Except.isOk, Except.toBool, beq_eq_false_iff_ne, h1, h2, h3]
  · intro size cfg h
    by_cases h1 : size = "small"
    · subst h1
      have hc : cfg = [("cpu", "1"), ("memory", "2Gi"), ("disk", "10Gi")] := by
        have h0 : get_resource_config "small" =
            Except.ok [("cpu", "1"), ("memory", "2Gi"), ("disk", "10Gi")] := rfl
        rw [h0] at h
        simpa using h.symm
      subst hc
      exact ⟨"1", "2Gi", "10Gi", rfl, by decide, rfl, by decide, rfl,
        by decide⟩
    by_cases h2 : size = "medium"
    · subst h2
      have hc : cfg = [("cpu", "2"), ("memory", "4Gi"), ("disk", "20Gi")] := by
        have h0 : get_resource_config "medium" =
            Except.ok [("cpu", "2"), ("memory", "4Gi"), ("disk", "20Gi")] := rfl
        rw [h0] at h
        simpa using h.symm
      subst hc
      exact ⟨"2", "4Gi", "20Gi", rfl, by decide, rfl, by decide, rfl,
        by decide⟩
    by_cases h3 : size = "large"
    · subst h3
      have hc : cfg = [("cpu", "4"), ("memory", "8Gi"), ("disk", "40Gi")] := by
        have h0 : get_resource_config "large" =
            Except.ok [("cpu", "4"), ("memory", "8Gi"), ("disk", "40Gi")] := rfl
        rw [h0] at h
        simpa using h.symm
      subst hc
      exact ⟨"4", "8Gi", "40Gi", rfl, by decide, rfl, by decide, rfl,
        by decide⟩
    rw [herr size h1 h2 h3] at h
    exact absurd h (by simp)

/-- Witness for C8: `huge` is none of the known labels and fails with
the not-found error. -/
theorem claim_C8_witness :
    ("huge" : String) ≠ "small" ∧ ("huge" : String) ≠ "medium" ∧
    ("huge" : String) ≠ "large" ∧
    get_resource_config "huge" =
      Except.error ("Resource configuration \x27" ++ "huge" ++
        "\x27 not found") :=
  ⟨by decide, by decide, by decide,
   claim_C8.2.2.1 "huge" (by decide) (by decide) (by decide)⟩

end DAgent
